import Mathlib

/-!
Shallow embedding of servo's `python/tidy.py` (a static style checker).

Strings are modelled as `List Char` (`Str`), matching Python byte strings
character by character.  Each tidy rule becomes a Lean function from the
file name and the file's text (or its list of lines, each keeping its
trailing newline, as produced by `contents.splitlines(True)`) to the list
of `(line_locator, message)` findings it yields, in yield order.  Python's
`raise StopIteration` inside a generator ends the stream normally, so it
is modelled as returning `[]`.  A genuine uncaught exception (`KeyError`)
is modelled with an explicit error channel.
-/

abbrev Str := List Char

def chars (s : String) : Str := s.data

/-- Python's `str.strip()` whitespace set: space, tab, LF, CR, VT, FF. -/
def isPySpace (c : Char) : Bool :=
  c = ' ' || c = '\t' || c = '\n' || c = '\r' || c = Char.ofNat 11 || c = Char.ofNat 12

def pyStrip (l : Str) : Str :=
  ((l.dropWhile isPySpace).reverse.dropWhile isPySpace).reverse

/-- Python's `line.rstrip('\n')`: remove all trailing newline characters. -/
def rstripNl (l : Str) : Str :=
  (l.reverse.dropWhile (· = '\n')).reverse

/-- Python's `needle in haystack` substring test. -/
def containsSub (n : Str) : Str → Bool
  | [] => n.isPrefixOf []
  | c :: rest => n.isPrefixOf (c :: rest) || containsSub n rest

/-- Index of the first occurrence of `n` in the list, if any (Python `str.find` ≥ 0 case). -/
def pyFindIdx (n : Str) : Str → Option Nat
  | [] => if n.isPrefixOf ([] : Str) then some 0 else none
  | c :: rest =>
    if n.isPrefixOf (c :: rest) then some 0
    else (pyFindIdx n rest).map (· + 1)

/-- Python's `str.find`: first index of the substring, `-1` when absent. -/
def pyFind (n l : Str) : Int :=
  match pyFindIdx n l with
  | some i => (i : Int)
  | none => -1

def findCharIdx (c : Char) : Str → Option Nat
  | [] => none
  | d :: rest => if d = c then some 0 else (findCharIdx c rest).map (· + 1)

/-- Python's `str.rfind` for a single character: last index or `none`. -/
def rfindCharIdx (c : Char) (l : Str) : Option Nat :=
  (findCharIdx c l.reverse).map (fun i => l.length - 1 - i)

/-- Python's `<` on strings: lexicographic by code point. -/
def pyStrLt : Str → Str → Bool
  | [], [] => false
  | [], _ :: _ => true
  | _ :: _, [] => false
  | a :: xs, b :: ys => if a = b then pyStrLt xs ys else decide (a < b)

/-- Python's `max` on a list of strings (first maximum wins on ties). -/
def pyMax : List Str → Str
  | [] => []
  | v :: rest => rest.foldl (fun acc x => if pyStrLt acc x then x else acc) v

def flatL {α : Type} : List (List α) → List α
  | [] => []
  | x :: xs => x ++ flatL xs

/-- Python's `sep.join(parts)`. -/
def joinWith (sep : Str) : List Str → Str
  | [] => []
  | [x] => x
  | x :: y :: xs => x ++ sep ++ joinWith sep (y :: xs)

/-- Python's `str.count` for a two-character pattern (non-overlapping). -/
def countSub2 (a b : Char) : Str → Nat
  | c :: d :: rest =>
    if c = a && d = b then 1 + countSub2 a b rest else countSub2 a b (d :: rest)
  | _ => 0

def lookupD (k : Int) (d : List (Int × Str)) : Option Str :=
  (d.find? (fun p => p.1 == k)).map (·.2)

def insertD (k : Int) (v : Str) : List (Int × Str) → List (Int × Str)
  | [] => [(k, v)]
  | (k', v') :: rest => if k' == k then (k, v) :: rest else (k', v') :: insertD k v rest

/-- Modelled from the spec: the known license texts live in the `licenseck`
module, which is not part of the sources under scrutiny; the spec says only
that there is a fixed set of known license texts whose maximal line count
bounds the header span.  Two representative comment-header license texts
(an MPL block comment and an Apache/MIT line-comment header) stand in for
that database. -/
def licenses : List Str :=
  [chars "/* This Source Code Form is subject to the terms of the Mozilla Public\n * License, v. 2.0. If a copy of the MPL was not distributed with this\n * file, You can obtain one at http://mozilla.org/MPL/2.0/. */\n",
   chars "// Copyright 2013 The Servo Project Developers. See the COPYRIGHT\n// file at the top-level directory of this distribution.\n//\n// Licensed under the Apache License, Version 2.0 <LICENSE-APACHE or\n// http://www.apache.org/licenses/LICENSE-2.0> or the MIT license\n// <LICENSE-MIT or http://opensource.org/licenses/MIT>, at your\n// option. This file may not be copied, modified, or distributed\n// except according to those terms.\n"]

def EMACS_HEADER : Str := chars "/* -*- Mode:"

def VIM_HEADER : Str := chars "/* vim:"

/-- Number of lines `str.splitlines()` yields, for newline-only strings
(the modelled license texts contain no other line separators). -/
def lineCount (l : Str) : Nat :=
  l.count '\n' + (if l ≠ [] ∧ l.getLast? ≠ some '\n' then 1 else 0)

def MAX_LICENSE_LINESPAN : Nat := (licenses.map lineCount).foldl max 0

/-- The `while lines and lines[0].startswith(...)` loop of `check_license`. -/
def dropEditorHeaders : List Str → List Str
  | [] => []
  | l :: rest =>
    if EMACS_HEADER.isPrefixOf l || VIM_HEADER.isPrefixOf l then dropEditorHeaders rest
    else l :: rest

/-- The `contents` value `check_license` tests: the join of the first
`MAX_LICENSE_LINESPAN` lines after stripping editor-mode headers. -/
def licenseHeader (lines : List Str) : Str :=
  flatL ((dropEditorHeaders lines).take MAX_LICENSE_LINESPAN)

def check_license (file_name : Str) (lines : List Str) : List (Nat × Str) :=
  if (chars ".toml").isSuffixOf file_name then []
  else if (chars ".lock").isSuffixOf file_name then []
  else if (chars ".json").isSuffixOf file_name then []
  else
    let contents := licenseHeader lines
    let valid_license := licenses.any (fun lic => lic.isPrefixOf contents)
    let acknowledged_bad_license := containsSub (chars "xfail-license") contents
    if valid_license || acknowledged_bad_license then [] else [(1, chars "incorrect license")]

def max_length : Nat := 120

/-- The rendering of `"Line is longer than %d characters" % max_length`. -/
def lengthMsg : Str := chars "Line is longer than 120 characters"

def check_length (file_name : Str) (idx : Nat) (line : Str) : List (Nat × Str) :=
  if (chars ".lock").isSuffixOf file_name || (chars ".json").isSuffixOf file_name then []
  else if (rstripNl line).length > max_length then [(idx + 1, lengthMsg)] else []

/-- Python's `\w` for ASCII strings. -/
def isPyWord (c : Char) : Bool := c.isAlphanum || c = '_'

def isWordDash (c : Char) : Bool := isPyWord c || c = '-'

/-- The character class `[\w\:-]` of the WHATWG anchor capture groups. -/
def isAnchorChar (c : Char) : Bool := isPyWord c || c = ':' || c = '-'

def litMultipage : Str := chars "https://html.spec.whatwg.org/multipage/"

def litSinglePage : Str := chars "https://html.spec.whatwg.org/#"

/-- Match of `https://html\.spec\.whatwg\.org/multipage/[\w-]+\.html#([\w\:-]+)`
anchored at the head of `l`; returns the capture group.  The greedy `[\w-]+`
cannot backtrack usefully (it must end exactly at the `.` of `.html`), so the
match is computed deterministically. -/
def matchSpecificAt (l : Str) : Option Str :=
  if litMultipage.isPrefixOf l then
    let rest := l.drop litMultipage.length
    let ws := rest.takeWhile isWordDash
    if ws.isEmpty then none
    else
      let rest2 := rest.drop ws.length
      if (chars ".html#").isPrefixOf rest2 then
        let anchor := (rest2.drop 6).takeWhile isAnchorChar
        if anchor.isEmpty then none else some anchor
      else none
  else none

/-- `re.search` of the multipage-with-specific-page pattern: leftmost match. -/
def searchSpecific : Str → Option Str
  | [] => none
  | c :: rest =>
    match matchSpecificAt (c :: rest) with
    | some g => some g
    | none => searchSpecific rest

/-- Match of `https://html\.spec\.whatwg\.org/#([\w\:-]+)` anchored at the head. -/
def matchSinglePageAt (l : Str) : Option Str :=
  if litSinglePage.isPrefixOf l then
    let anchor := (l.drop litSinglePage.length).takeWhile isAnchorChar
    if anchor.isEmpty then none else some anchor
  else none

def searchSinglePage : Str → Option Str
  | [] => none
  | c :: rest =>
    match matchSinglePageAt (c :: rest) with
    | some g => some g
    | none => searchSinglePage rest

/-- The suggested canonical replacement URL both WHATWG rules construct. -/
def preferredLink (anchor : Str) : Str :=
  chars "https://html.spec.whatwg.org/multipage/#" ++ anchor

def check_whatwg_specific_url (idx : Nat) (line : Str) : List (Nat × Str) :=
  match searchSpecific line with
  | none => []
  | some a =>
    [(idx + 1, chars "link to WHATWG may break in the future, use this format instead: " ++ preferredLink a)]

def check_whatwg_single_page_url (idx : Nat) (line : Str) : List (Nat × Str) :=
  match searchSinglePage line with
  | none => []
  | some a =>
    [(idx + 1, chars "links to WHATWG single-page url, change to multi page: " ++ preferredLink a)]

/-- `check_whitespace`; `line[-1]` raises `IndexError` on an empty string,
modelled as the error case (lines from `splitlines(True)` are never empty). -/
def check_whitespace (idx : Nat) (line : Str) : Except String (List (Nat × Str)) :=
  match line.getLast? with
  | none => .error "IndexError: string index out of range"
  | some c =>
    let stripped := if c = '\n' then line.dropLast else line
    let nlF : List (Nat × Str) := if c = '\n' then [] else [(idx + 1, chars "no newline at EOF")]
    let trailF := if stripped.getLast? = some ' ' then [(idx + 1, chars "trailing whitespace")] else []
    let tabF := if stripped.contains '\t' then [(idx + 1, chars "tab on line")] else []
    let crF := if stripped.contains '\r' then [(idx + 1, chars "CR on line")] else []
    .ok (nlF ++ trailF ++ tabF ++ crF)

/-- One `[[package]]` (or the `[root]`) entry of a parsed `.lock` manifest,
with the fields `check_lock` reads: `name`, `version`, and the
`dependencies` list of `"name version (source)"` strings. -/
structure LockPackage where
  name : Str
  version : Str
  dependencies : List Str

/-- The parsed manifest (`toml.loads` result) as `check_lock` accesses it.
`content["root"]` is a plain indexing operation that raises `KeyError` when
the table is absent, hence an `Option`; `content.get("package", [])`
defaults to the empty list, hence a plain `List`. -/
structure LockContent where
  root : Option LockPackage
  package : List LockPackage

/-- Package names to be neglected (as named by cargo). -/
def lock_exceptions : List Str := [chars "bitflags", chars "xml-rs", chars "gl_generator"]

/-- The inner generator of `check_lock`; evaluating `content["root"]` is the
lookup that can fail, modelled by the error case. -/
def find_reverse_dependencies (dependency version : Str) (content : LockContent) :
    Except String (List Str) :=
  match content.root with
  | none => .error "KeyError: root"
  | some root =>
    let depPfx := dependency ++ [' '] ++ version
    .ok (flatL ((root :: content.package).map (fun p =>
      p.dependencies.filterMap (fun d => if depPfx.isPrefixOf d then some p.name else none))))

/-- The formatted (and then `.strip()`-ed) duplicate-version message. -/
def mkLockMessage (package old_version new_version reverse_dependencies : Str) : Str :=
  pyStrip (chars "\nduplicate versions for package \"" ++ package
    ++ chars "\"\n\t\x1b[93mfound dependency on version " ++ old_version
    ++ chars "\x1b[0m\n\t\x1b[91mbut highest version is " ++ new_version
    ++ chars "\x1b[0m\n\t\x1b[93mtry upgrading with\x1b[0m \x1b[96m./mach cargo-update -p "
    ++ package ++ [':'] ++ old_version
    ++ chars "\x1b[0m\n\tThe following packages depend on version " ++ old_version
    ++ chars ":\n" ++ reverse_dependencies ++ chars "\n")

/-- The `for version in versions` loop of `check_lock` for one package.
The result is the list of findings yielded before any `KeyError`, paired
with the error if one aborted the generator. -/
def processVersions (name highest : Str) (content : LockContent) :
    List Str → List (Nat × Str) × Option String
  | [] => ([], none)
  | v :: rest =>
    if v ≠ highest then
      match find_reverse_dependencies name v content with
      | .error e => ([], some e)
      | .ok revNames =>
        let reverse_dependencies :=
          joinWith (chars "\n") (revNames.map (fun n => chars "\t\t" ++ n))
        let r := processVersions name highest content rest
        ((1, mkLockMessage name v highest reverse_dependencies) :: r.1, r.2)
    else processVersions name highest content rest

/-- The `for (name, versions) in packages.iteritems()` loop; the Python 2
dict's unspecified iteration order is realized as insertion order. -/
def processPackages (content : LockContent) :
    List (Str × List Str) → List (Nat × Str) × Option String
  | [] => ([], none)
  | (name, versions) :: rest =>
    if lock_exceptions.contains name || versions.length ≤ 1 then processPackages content rest
    else
      let r := processVersions name (pyMax versions) content versions
      match r.2 with
      | some e => (r.1, some e)
      | none =>
        let r' := processPackages content rest
        (r.1 ++ r'.1, r'.2)

/-- The `packages.setdefault(name, []).append(version)` grouping step. -/
def addVersion (name version : Str) : List (Str × List Str) → List (Str × List Str)
  | [] => [(name, [version])]
  | (n, vs) :: rest =>
    if n = name then (n, vs ++ [version]) :: rest else (n, vs) :: addVersion name version rest

def check_lock (file_name : Str) (content : LockContent) :
    List (Nat × Str) × Option String :=
  if ! (chars ".lock").isSuffixOf file_name then ([], none)
  else
    processPackages content
      (content.package.foldl (fun d p => addVersion p.name p.version d) [])

def check_toml (file_name : Str) (lines : List Str) : List (Nat × Str) :=
  if ! (chars ".toml").isSuffixOf file_name then []
  else
    flatL (lines.enum.map (fun p =>
      if p.2.contains '*' then
        [(p.1 + 1, chars "found asterisk instead of minimum version number")]
      else []))

def webidl_standards : List Str :=
  [chars "//www.khronos.org/registry/webgl/specs",
   chars "//developer.mozilla.org/en-US/docs/Web/API",
   chars "//dev.w3.org/2006/webapi",
   chars "//dev.w3.org/csswg",
   chars "//dev.w3.org/fxtf",
   chars "//dvcs.w3.org/hg",
   chars "//dom.spec.whatwg.org",
   chars "//domparsing.spec.whatwg.org",
   chars "//drafts.csswg.org/cssom",
   chars "//drafts.fxtf.org",
   chars "//encoding.spec.whatwg.org",
   chars "//html.spec.whatwg.org",
   chars "//url.spec.whatwg.org",
   chars "//xhr.spec.whatwg.org",
   chars "//w3c.github.io",
   chars "//heycam.github.io/webidl",
   chars "//webbluetoothcg.github.io/web-bluetooth/",
   chars "// This interface is entirely internal to Servo, and should not be accessible to\n// web pages."]

def check_webidl_spec (file_name contents : Str) : List (Nat × Str) :=
  if ! (chars ".webidl").isSuffixOf file_name then []
  else if webidl_standards.any (fun s => containsSub s contents) then []
  else [(0, chars "No specification link found.")]

/-- One printed finding line of `scan`'s reporting loop,
`"\r\033[94m{}\033[0m:\033[93m{}\033[0m: \033[91m{}\033[0m".format(*error)`,
over findings whose locator has already been rendered to text. -/
def formatErrorLine (e : Str × Str × Str) : Str :=
  chars "\r\x1b[94m" ++ e.1 ++ chars "\x1b[0m:\x1b[93m" ++ e.2.1
    ++ chars "\x1b[0m: \x1b[91m" ++ e.2.2 ++ chars "\x1b[0m"

def successMessage : Str := chars "\n\x1b[92mtidy reported no errors.\x1b[0m"

/-- The reporting tail of `scan`: the findings stream is printed line by
line; `error` stays `None` exactly when the stream is empty, in which case
the success message is printed; the return value is `int(error is not None)`. -/
def scan_report (errors : List (Str × Str × Str)) : List Str × Nat :=
  (errors.map formatErrorLine ++ (if errors.isEmpty then [successMessage] else []),
   if errors.isEmpty then 0 else 1)

/-- Non-overlapping scan of a fixed-width pattern, mimicking `re.finditer`:
after a hit of width `k` the scan resumes `k` characters further on,
otherwise one character further on.  `skip` counts positions still covered
by the previous hit. -/
def scanFixAux (k : Nat) (hit : Str → Bool) : Nat → Nat → Str → List Nat
  | _, _, [] => []
  | 0, pos, c :: rest =>
    if hit (c :: rest) then pos :: scanFixAux k hit (k - 1) (pos + 1) rest
    else scanFixAux k hit 0 (pos + 1) rest
  | skip + 1, pos, c :: rest =>
    let _ := c
    scanFixAux k hit skip (pos + 1) rest

def scanFix (k : Nat) (hit : Str → Bool) (l : Str) : List Nat :=
  scanFixAux k hit 0 0 l

def hit2 (p : Char → Char → Bool) : Str → Bool
  | a :: b :: _ => p a b
  | _ => false

def hit3 (p : Char → Char → Char → Bool) : Str → Bool
  | a :: b :: c :: _ => p a b c
  | _ => false

def hit4 (p : Char → Char → Char → Char → Bool) : Str → Bool
  | a :: b :: c :: d :: _ => p a b c d
  | _ => false

def hitLit (lit : Str) (l : Str) : Bool := lit.isPrefixOf l

/-- Findings of one `(pattern, message, filter_function)` table entry on one
line: the non-overlapping matches, each kept when the filter admits it. -/
def ruleFindings (line : Str) (k : Nat) (hit : Str → Bool)
    (filt : Nat → Nat → Bool) (msg : Nat → Nat → Str) : List Str :=
  (scanFix k hit line).filterMap (fun s =>
    if filt s (s + k) then some (msg s (s + k)) else none)

/-- `re.search(r"#\[.*\]", line)`: some `#[` with a `]` at least two places
further on. -/
def line_is_attribute : Str → Bool
  | a :: b :: rest =>
    (a = '#' && b = '[' && rest.contains ']') || line_is_attribute (b :: rest)
  | _ => false

/-- `re.search(r"^//|^/\*|^\*", line)`. -/
def line_is_comment (l : Str) : Bool :=
  (chars "//").isPrefixOf l || (chars "/*").isPrefixOf l || (chars "*").isPrefixOf l

/-- `is_associated_type(match, line)`: avoid flagging `<Item=Foo>` constructs.
`g1` is `match.group(1)`, `mstart`/`mend` the match bounds. -/
def is_associated_type (g1 : Char) (mstart mend : Nat) (line : Str) : Bool :=
  if g1 ≠ '=' then false
  else
    let open_angle : Int :=
      match rfindCharIdx '<' (line.take mend) with
      | some i => (i : Int)
      | none => -1
    let close_angle : Int :=
      if open_angle ≠ -1 then
        match findCharIdx '>' (line.drop open_angle.toNat) with
        | some i => (i : Int)
        | none => -1
      else -1
    let generic_open := open_angle ≠ -1 && decide (open_angle < (mstart : Int))
    let generic_close := close_angle ≠ -1 && decide (close_angle + open_angle ≥ (mend : Int))
    generic_open && generic_close

/-- Shortest completion of a string/char literal opened with quote `q`, as
matched by the non-greedy `(\\.|[^\\q])*?q`: returns the text after the
closing quote, or `none` when the literal never closes. -/
def closeQuote (q : Char) : Str → Option Str
  | [] => none
  | c :: rest =>
    if c = q then some rest
    else if c = '\\' then
      match rest with
      | [] => none
      | _ :: rest2 => closeQuote q rest2
    else closeQuote q rest

/-- Auxiliary scanner for `stripQuotes` with explicit fuel.  Each step
consumes at least one character of the input (a closed literal consumes at
least its two quotes), so fuel equal to the input length is never
exhausted; the fuel-0 branch is unreachable and returns the input. -/
def stripQuotesAux : Nat → Str → Str
  | 0, l => l
  | _ + 1, [] => []
  | fuel + 1, c :: rest =>
    if c = '"' then
      match closeQuote '"' rest with
      | some rem => stripQuotesAux fuel rem
      | none => c :: stripQuotesAux fuel rest
    else if c = Char.ofNat 39 then
      match closeQuote (Char.ofNat 39) rest with
      | some rem => stripQuotesAux fuel rem
      | none => c :: stripQuotesAux fuel rest
    else c :: stripQuotesAux fuel rest

/-- `re.sub(r'"(\\.|[^\\"])*?"|' + r"'(\\.|[^\\'])*?'", '', line)`: remove
string and char literals (shortest-match semantics of the non-greedy
alternation; an unterminated literal leaves its opening quote in place). -/
def stripQuotes (l : Str) : Str := stripQuotesAux l.length l

/-- Truncation point of `re.sub('//.*?$|/\*.*?$|^\*.*?$', '', line)` for a
line not beginning with `*`: cut at the first `//` or `/*`. -/
def cutCommentAux : Str → Str
  | c :: d :: rest =>
    if c = '/' && (d = '/' || d = '*') then [] else c :: cutCommentAux (d :: rest)
  | l => l

/-- `re.sub('//.*?$|/\*.*?$|^\*.*?$', '', line)`: get rid of comments. -/
def stripComments (l : Str) : Str :=
  match l with
  | '*' :: _ => []
  | _ => cutCommentAux l

/-- The character class of `re.sub('^#[A-Za-z0-9\(\)\[\]_]*?$', '', line)`. -/
def isAttrChar (c : Char) : Bool :=
  c.isAlphanum || c = '(' || c = ')' || c = '[' || c = ']' || c = '_'

/-- Remove attributes that do not contain `=` (the whole line must be `#`
followed by attribute characters). -/
def stripBareAttr (l : Str) : Str :=
  match l with
  | '#' :: rest => if rest.all isAttrChar then [] else l
  | _ => l

/-- `[A-Za-z0-9"]`. -/
def isAlnumQ (c : Char) : Bool := c.isAlphanum || c = '"'

/-- `[A-DF-Za-df-z0-9]`: alphanumeric except `E`/`e` (scientific notation). -/
def isSciPart (c : Char) : Bool := c.isAlphanum && c ≠ 'E' && c ≠ 'e'

/-- The operator class of `[A-Za-z0-9]([\+/\*%=])`. -/
def isOpBefore (c : Char) : Bool := c = '+' || c = '/' || c = '*' || c = '%' || c = '='

/-- The operator class of `([\+/\%=])[A-Za-z0-9"]`. -/
def isOpAfter (c : Char) : Bool := c = '+' || c = '/' || c = '%' || c = '='

/-- `re.match(r'^(pub )?use', line)` as a boolean. -/
def lineStartsUse (l : Str) : Bool :=
  (chars "use").isPrefixOf l || (chars "pub use").isPrefixOf l

/-- The ordered `regex_rules` table of `check_rust`, applied to one
(pre-processed) line; produces the messages in table order, matches in
left-to-right order within each entry. -/
def regexFindings (line : Str) : List Str :=
  let attr := line_is_attribute line
  ruleFindings line 2 (hit2 (fun a b => a = ',' && ! isPySpace b))
    (fun _ _ => ! line.contains '$') (fun _ _ => chars "missing space after ,")
  ++ ruleFindings line 2 (hit2 (fun a b => isAlnumQ a && b = '='))
    (fun _ _ => attr) (fun _ _ => chars "missing space before =")
  ++ ruleFindings line 2 (hit2 (fun a b => a = '=' && isAlnumQ b))
    (fun _ _ => attr) (fun _ _ => chars "missing space after =")
  ++ ruleFindings line 2 (hit2 (fun a b => isSciPart a && b = '-'))
    (fun _ _ => ! attr) (fun _ _ => chars "missing space before -")
  ++ ruleFindings line 2 (hit2 (fun a b => a.isAlphanum && isOpBefore b))
    (fun s e => ! attr && ! is_associated_type (line.getD (s + 1) ' ') s e line)
    (fun s _ => chars "missing space before " ++ [line.getD (s + 1) ' '])
  ++ ruleFindings line 2 (hit2 (fun a b => isOpAfter a && isAlnumQ b))
    (fun s e => ! attr && ! is_associated_type (line.getD s ' ') s e line)
    (fun s _ => chars "missing space after " ++ [line.getD s ' '])
  ++ ruleFindings line 3 (hit3 (fun a b c => a = ')' && b = '-' && c = '>'))
    (fun _ _ => true) (fun _ _ => chars "missing space before ->")
  ++ ruleFindings line 3 (hit3 (fun a b c => a = '-' && b = '>' && c.isAlpha))
    (fun _ _ => true) (fun _ _ => chars "missing space after ->")
  ++ ruleFindings line 3 (hit3 (fun a b c => a ≠ ' ' && b = '=' && c = '>'))
    (fun s _ => s ≠ 0) (fun _ _ => chars "missing space before =>")
  ++ ruleFindings line 3 (hit3 (fun a b c => a = '=' && b = '>' && c ≠ ' '))
    (fun _ e => e ≠ line.length) (fun _ _ => chars "missing space after =>")
  ++ ruleFindings line 4 (hit4 (fun a b c d => a = '=' && b = '>' && c = ' ' && d = ' '))
    (fun _ _ => true) (fun _ _ => chars "extra space after =>")
  ++ ruleFindings line 3 (hit3 (fun a b c => a = ' ' && b = ':' && c ≠ ':'))
    (fun s _ => ! containsSub (chars "trait ") (line.take s))
    (fun _ _ => chars "extra space before :")
  ++ ruleFindings line 3 (hit3 (fun a b c => a ≠ ':' && b = ':' && c.isAlpha))
    (fun _ e => ! (line.take e).contains '$') (fun _ _ => chars "missing space after :")
  ++ ruleFindings line 2 (hit2 (fun a b => (a.isAlphanum || a = ')') && b = Char.ofNat 123))
    (fun _ _ => true) (fun _ _ => chars "missing space before \x7b")
  ++ ruleFindings line 3 (hit3 (fun a b c =>
      ! isPySpace a && a ≠ Char.ofNat 123 && a ≠ Char.ofNat 125
      && b = Char.ofNat 125 && c ≠ Char.ofNat 96))
    (fun _ _ => ! lineStartsUse line) (fun _ _ => chars "missing space before \x7d")
  ++ ruleFindings line 3 (hit3 (fun a b c =>
      a ≠ Char.ofNat 96 && b = Char.ofNat 123
      && ! isPySpace c && c ≠ Char.ofNat 123 && c ≠ Char.ofNat 125))
    (fun _ _ => ! lineStartsUse line) (fun _ _ => chars "missing space after \x7b")
  ++ ruleFindings line 7 (hitLit (chars ": &Vec<"))
    (fun _ _ => true) (fun _ _ => chars "use &[T] instead of &Vec<T>")
  ++ ruleFindings line 9 (hitLit (chars ": &String"))
    (fun _ _ => true) (fun _ _ => chars "use &str instead of &String")

/-- The per-file mutable locals of `check_rust`. -/
structure RustState where
  comment_depth : Int
  merged_lines : Str
  import_block : Bool
  whitespace : Bool
  prev_use : Option Str
  current_indent : Int
  prev_crate : List (Int × Str)
  prev_mod : List (Int × Str)

def initRustState : RustState := ⟨0, [], false, false, none, 0, [], []⟩

def decl_expected (s : Str) : Str := chars "\n\t\x1b[93mexpected: " ++ s ++ chars "\x1b[0m"

def decl_found (s : Str) : Str := chars "\n\t\x1b[91mfound: " ++ s ++ chars "\x1b[0m"

def crateOrderMsg (p f : Str) : Str :=
  chars "extern crate declaration is not in alphabetical order" ++ decl_expected p ++ decl_found f

def useOrderMsg (p f : Str) : Str :=
  chars "use statement is not in alphabetical order" ++ decl_expected p ++ decl_found f

def modOrderMsg (p f : Str) : Str :=
  chars "mod declaration is not in alphabetical order" ++ decl_expected p ++ decl_found f

/-- One iteration of `check_rust`'s `for idx, original_line in enumerate(lines)`
loop: the updated state and the findings yielded for this line, in yield
order. -/
def processRustLine (all_lines : List Str) (st : RustState) (idx : Nat)
    (original_line : Str) : RustState × List (Nat × Str) :=
  let line0 := pyStrip original_line
  let depth :=
    if line0.contains '/' then
      st.comment_depth + (countSub2 '/' '*' line0 : Int) - (countSub2 '*' '/' line0 : Int)
    else st.comment_depth
  if line0.getLast? = some '\\' then
    ({ st with comment_depth := depth, merged_lines := st.merged_lines ++ line0.dropLast }, [])
  else if depth ≠ 0 then
    ({ st with comment_depth := depth, merged_lines := st.merged_lines ++ line0 }, [])
  else
    let line1 := if st.merged_lines ≠ [] then st.merged_lines ++ line0 else line0
    let ibw : Bool × Bool :=
      if st.import_block
         && ! (line_is_comment line1 || line_is_attribute line1
               || (chars "use ").isPrefixOf line1) then
        (line1.isEmpty, line1.isEmpty)
      else (st.import_block, st.whitespace)
    let import_block1 := ibw.1
    let whitespace1 := ibw.2
    let line2 := if line_is_attribute line1 then line1 else stripQuotes line1
    let line3 := stripComments line2
    let line4 := stripBareAttr line3
    let regexF := (regexFindings line4).map (fun m => (idx + 1, m))
    let crateRes : List (Nat × Str) × List (Int × Str) :=
      if (chars "extern crate ").isPrefixOf line4 then
        let crate_name := (line4.drop 13).dropLast
        let indent : Int := (original_line.length : Int) - (line4.length : Int)
        let prevC := (lookupD indent st.prev_crate).getD []
        (if pyStrLt crate_name prevC then [(idx + 1, crateOrderMsg prevC crate_name)] else [],
         insertD indent crate_name st.prev_crate)
      else ([], st.prev_crate)
    let useRes : List (Nat × Str) × Option Str × Int × Bool :=
      if (chars "use ").isPrefixOf line4 then
        let indent : Int := (original_line.length : Int) - (line4.length : Int)
        let spanF :=
          if line4.getLast? != some ';' && line4.contains (Char.ofNat 123) then
            [(idx + 1, chars "use statement spans multiple lines")]
          else []
        let current_use := (line4.drop 4).dropLast
        let ordF :=
          if (indent == st.current_indent
              && match st.prev_use with
                 | some p => ! p.isEmpty && pyStrLt current_use p
                 | none => false) then
            [(idx + 1, useOrderMsg (st.prev_use.getD []) current_use)]
          else []
        (spanF ++ ordF, some current_use, indent, true)
      else ([], st.prev_use, st.current_indent, import_block1)
    let useF := useRes.1
    let prev_use1 := useRes.2.1
    let indent1 := useRes.2.2.1
    let import_block2 := useRes.2.2.2
    let current_indent2 : Int := if whitespace1 || ! import_block2 then 0 else indent1
    let wsRes : List (Nat × Str) × Bool :=
      if import_block2 && whitespace1 && (chars "use ").isPrefixOf line4 then
        ([(idx, chars "encountered whitespace following a use statement")], false)
      else ([], whitespace1)
    let modRes : List (Nat × Str) × List (Int × Str) :=
      if (chars "mod ").isPrefixOf line4 || (chars "pub mod ").isPrefixOf line4 then
        let indent : Int := (original_line.length : Int) - (line4.length : Int)
        let m :=
          if (chars "mod ").isPrefixOf line4 then (line4.drop 4).dropLast
          else (line4.drop 8).dropLast
        if idx == 0 || ! containsSub (chars "#[macro_use]") (all_lines.getD (idx - 1) []) then
          let matchPos := pyFind (chars " \x7b") line4
          let prevM := (lookupD indent st.prev_mod).getD []
          let spanF :=
            if matchPos == -1 && line4.getLast? != some ';' then
              [(idx + 1, chars "mod declaration spans multiple lines")]
            else []
          let ordF :=
            if prevM.length > 0 && pyStrLt m prevM then
              [(idx + 1, modOrderMsg prevM m)]
            else []
          (spanF ++ ordF, insertD indent m st.prev_mod)
        else ([], st.prev_mod)
      else ([], [])
    ({ comment_depth := depth, merged_lines := [],
       import_block := import_block2, whitespace := wsRes.2,
       prev_use := prev_use1, current_indent := current_indent2,
       prev_crate := crateRes.2, prev_mod := modRes.2 },
     regexF ++ crateRes.1 ++ useF ++ wsRes.1 ++ modRes.1)

def rustLoop (all_lines : List Str) : RustState → Nat → List Str → List (Nat × Str)
  | _, _, [] => []
  | st, idx, l :: rest =>
    let pr := processRustLine all_lines st idx l
    pr.2 ++ rustLoop all_lines pr.1 (idx + 1) rest

def check_rust (file_name : Str) (lines : List Str) : List (Nat × Str) :=
  if ! (chars ".rs").isSuffixOf file_name
     || (chars "properties.mako.rs").isSuffixOf file_name
     || (chars "style/build.rs").isSuffixOf file_name
     || (chars "geckolib/build.rs").isSuffixOf file_name
     || (chars "unit/style/stylesheets.rs").isSuffixOf file_name then []
  else rustLoop lines initRustState 0 lines

theorem isPrefixOf_append_self : ∀ (p t : Str), p.isPrefixOf (p ++ t) = true
  | [], _ => by simp [List.isPrefixOf]
  | c :: p, t => by simp [List.isPrefixOf, isPrefixOf_append_self p t]

theorem mem_of_isPrefixOf : ∀ (p l : Str) (c : Char),
    p.isPrefixOf l = true → c ∈ p → c ∈ l
  | [], _, c, _, hm => absurd hm (by simp)
  | a :: p, [], c, h, _ => by simp [List.isPrefixOf] at h
  | a :: p, b :: l, c, h, hm => by
    simp only [List.isPrefixOf, Bool.and_eq_true, beq_iff_eq] at h
    obtain ⟨hab, hp⟩ := h
    rcases List.mem_cons.mp hm with h1 | h2
    · subst hab; subst h1; exact List.mem_cons_self _ _
    · exact List.mem_cons_of_mem _ (mem_of_isPrefixOf p l c hp h2)

theorem flatL_append {α : Type} : ∀ (a b : List (List α)),
    flatL (a ++ b) = flatL a ++ flatL b
  | [], _ => rfl
  | x :: xs, b => by simp [flatL, flatL_append xs b]

theorem mem_flatL {α : Type} (x : α) : ∀ (ls : List (List α)),
    x ∈ flatL ls ↔ ∃ l ∈ ls, x ∈ l
  | [] => by simp [flatL]
  | l :: ls => by
    simp only [flatL, List.mem_append, mem_flatL x ls, List.mem_cons]
    constructor
    · rintro (h | ⟨l', hl', hx⟩)
      · exact ⟨l, Or.inl rfl, h⟩
      · exact ⟨l', Or.inr hl', hx⟩
    · rintro ⟨l', rfl | hl', hx⟩
      · exact Or.inl hx
      · exact Or.inr ⟨l', hl', hx⟩

/-- Claim C1: the scan's exit status is 0 exactly when no finding was
produced (in which case the single success message is the whole report)
and 1 when at least one finding was produced (and then no success message
is printed). -/
theorem c1_exit_status (errors : List (Str × Str × Str)) :
    ((scan_report errors).2 = 0 ↔ errors = [])
    ∧ (errors = [] → (scan_report errors).1 = [successMessage])
    ∧ (errors ≠ [] → (scan_report errors).2 = 1 ∧ successMessage ∉ (scan_report errors).1) := by
  refine ⟨⟨?_, ?_⟩, ?_, ?_⟩
  · intro h
    cases errors with
    | nil => rfl
    | cons e es => simp [scan_report] at h
  · intro h; subst h; rfl
  · intro h; subst h; rfl
  · intro hne
    cases errors with
    | nil => exact absurd rfl hne
    | cons e es =>
      refine ⟨rfl, ?_⟩
      intro hmem
      simp only [scan_report, List.isEmpty_cons, Bool.false_eq_true, if_false,
        List.append_nil] at hmem
      obtain ⟨x, _, hfx⟩ := List.mem_map.mp hmem
      have h1 : (formatErrorLine x).head? = some '\r' := rfl
      rw [hfx] at h1
      have h2 : successMessage.head? = some '\n' := rfl
      rw [h1] at h2
      simp at h2

theorem c1_exit_status_witness :
    (scan_report []).1 = [successMessage]
    ∧ (scan_report [(chars "a.rs", chars "1", chars "m")]).2 = 1 :=
  ⟨(c1_exit_status []).2.1 rfl,
   ((c1_exit_status [(chars "a.rs", chars "1", chars "m")]).2.2 (by simp)).1⟩

/-- The two-line import scenario of the spec, as `splitlines(True)` lines. -/
def importLinesBad : List Str := [chars "use b::x;\n", chars "use a::y;\n"]

def importLinesGood : List Str := [chars "use a::y;\n", chars "use b::x;\n"]

/-- Claim C2 (counterexample): on `use b::x;` followed by `use a::y;`,
`check_rust` yields exactly one ordering finding at line 2, but its message
cites expected `b::x` and found `a::y` — the message never contains the
claimed "expected: a::y" nor "found: b::x". -/
theorem c2_counterexample :
    check_rust (chars "a.rs") importLinesBad
      = [(2, useOrderMsg (chars "b::x") (chars "a::y"))]
    ∧ containsSub (chars "expected: a::y") (useOrderMsg (chars "b::x") (chars "a::y")) = false
    ∧ containsSub (chars "found: b::x") (useOrderMsg (chars "b::x") (chars "a::y")) = false :=
  ⟨rfl, rfl, rfl⟩

/-- Claim C2 (amended): the single ordering finding at line 2 cites
expected "b::x" (the previous import) and found "a::y" (the current one);
with the lines reversed there is no finding at all. -/
theorem c2_import_order :
    check_rust (chars "a.rs") importLinesBad
      = [(2, useOrderMsg (chars "b::x") (chars "a::y"))]
    ∧ check_rust (chars "a.rs") importLinesGood = [] :=
  ⟨rfl, rfl⟩

/-- Claim C3 (counterexample): a `.toml` file with a 121-character line IS
flagged by the line-length rule — `.toml` is exempt from the license rule
but not from the length rule. -/
theorem c3_counterexample :
    check_length (chars "a.toml") 0 (List.replicate 121 'a') = [(1, lengthMsg)] := by
  decide

/-- Claim C3 (amended): the license rule yields no findings for `.toml`,
`.lock` and `.json` files; the length rule is exempt only for `.lock` and
`.json` files. -/
theorem c3_structured_exts (file_name : Str) :
    (((chars ".toml").isSuffixOf file_name = true
      ∨ (chars ".lock").isSuffixOf file_name = true
      ∨ (chars ".json").isSuffixOf file_name = true) →
      ∀ lines, check_license file_name lines = [])
    ∧ (((chars ".lock").isSuffixOf file_name = true
      ∨ (chars ".json").isSuffixOf file_name = true) →
      ∀ idx line, check_length file_name idx line = []) := by
  constructor
  · rintro (h | h | h) lines <;> simp [check_license, h]
  · rintro (h | h) idx line <;> simp [check_length, h]

theorem c3_structured_exts_witness :
    check_license (chars "a.toml") [chars "junk\n"] = []
    ∧ check_length (chars "a.lock") 0 (List.replicate 200 'a') = [] :=
  ⟨(c3_structured_exts (chars "a.toml")).1 (Or.inl rfl) _,
   (c3_structured_exts (chars "a.lock")).2 (Or.inl rfl) 0 _⟩

/-- The manifest of the spec's duplicate-version scenario: package `foo` at
versions 1.0 and 2.0, one dependent (`bar`) pinning 1.0, and a root table. -/
def fooLock : LockContent :=
  ⟨some ⟨chars "servo", chars "0.0.1", []⟩,
   [⟨chars "foo", chars "1.0", []⟩,
    ⟨chars "foo", chars "2.0", []⟩,
    ⟨chars "bar", chars "0.1",
     [chars "foo 1.0 (registry+https://github.com/rust-lang/crates.io-index)"]⟩]⟩

/-- The same manifest with `foo` renamed to the excepted package `bitflags`. -/
def bitflagsLock : LockContent :=
  ⟨some ⟨chars "servo", chars "0.0.1", []⟩,
   [⟨chars "bitflags", chars "1.0", []⟩,
    ⟨chars "bitflags", chars "2.0", []⟩,
    ⟨chars "bar", chars "0.1",
     [chars "bitflags 1.0 (registry+https://github.com/rust-lang/crates.io-index)"]⟩]⟩

/-- The exact message of the one finding `check_lock` yields on `fooLock`. -/
def fooLockMsg : Str :=
  chars "duplicate versions for package \"foo\"\n\t\x1b[93mfound dependency on version 1.0\x1b[0m\n\t\x1b[91mbut highest version is 2.0\x1b[0m\n\t\x1b[93mtry upgrading with\x1b[0m \x1b[96m./mach cargo-update -p foo:1.0\x1b[0m\n\tThe following packages depend on version 1.0:\n\t\tbar"

/-- Claim C6: on the duplicate-version manifest `check_lock` yields exactly
one finding whose message names 1.0 as outdated, 2.0 as highest, and lists
the single reverse dependency `bar`; renaming `foo` to the excepted
`bitflags` yields no finding; the highest version is the lexicographic
maximum of the version strings (`pyMax`). -/
theorem c6_lock_duplicates :
    check_lock (chars "Cargo.lock") fooLock = ([(1, fooLockMsg)], none)
    ∧ check_lock (chars "Cargo.lock") bitflagsLock = ([], none)
    ∧ pyMax [chars "1.0", chars "2.0"] = chars "2.0"
    ∧ pyMax [chars "2.0", chars "10.0"] = chars "2.0" :=
  ⟨rfl, rfl, rfl, rfl⟩

/-- Claim C7: in a file not ending in `.lock`/`.json`, a line whose length
after stripping trailing newlines is exactly 121 yields exactly one length
finding anchored at its 1-based number, and a line of at most 120
characters yields none. -/
theorem c7_line_length (file_name : Str) (idx : Nat) (line : Str)
    (hlock : (chars ".lock").isSuffixOf file_name = false)
    (hjson : (chars ".json").isSuffixOf file_name = false) :
    ((rstripNl line).length = 121 →
      check_length file_name idx line = [(idx + 1, lengthMsg)])
    ∧ ((rstripNl line).length ≤ 120 → check_length file_name idx line = []) := by
  constructor
  · intro h121
    simp [check_length, hlock, hjson, max_length, h121]
  · intro hle
    simp only [check_length, hlock, hjson, max_length]
    rw [if_neg (by simp), if_neg (by omega)]

theorem c7_line_length_witness :
    check_length (chars "a.rs") 4 (List.replicate 121 'a') = [(5, lengthMsg)]
    ∧ check_length (chars "a.rs") 4 (List.replicate 120 'a') = [] :=
  ⟨(c7_line_length (chars "a.rs") 4 (List.replicate 121 'a') rfl rfl).1 (by decide),
   (c7_line_length (chars "a.rs") 4 (List.replicate 120 'a') rfl rfl).2 (by decide)⟩

/-- The duplicate-version manifest without a `root` table. -/
def noRootLock : LockContent :=
  ⟨none,
   [⟨chars "foo", chars "1.0", []⟩,
    ⟨chars "foo", chars "2.0", []⟩,
    ⟨chars "bar", chars "0.1",
     [chars "foo 1.0 (registry+https://github.com/rust-lang/crates.io-index)"]⟩]⟩

/-- Claim C10: on a `.lock` manifest with a non-excepted package at two
versions but no `root` table, computing the reverse dependencies fails with
a `KeyError` instead of yielding a finding, aborting the rule. -/
theorem c10_missing_root :
    check_lock (chars "Cargo.lock") noRootLock = ([], some "KeyError: root")
    ∧ find_reverse_dependencies (chars "foo") (chars "1.0") noRootLock
      = .error "KeyError: root" :=
  ⟨rfl, rfl⟩

/-- Claim C8: each rule, on a file outside its scope (wrong extension, or
one of `check_rust`'s excluded generated files), terminates immediately
with zero findings; for `check_lock` (whose result carries an explicit
error channel) the error component is also `none`, so inapplicability is
never an error. -/
theorem c8_out_of_scope (file_name : Str) :
    ((chars ".lock").isSuffixOf file_name = false →
      ∀ content, check_lock file_name content = ([], none))
    ∧ (((chars ".rs").isSuffixOf file_name = false
        ∨ (chars "properties.mako.rs").isSuffixOf file_name = true
        ∨ (chars "style/build.rs").isSuffixOf file_name = true
        ∨ (chars "geckolib/build.rs").isSuffixOf file_name = true
        ∨ (chars "unit/style/stylesheets.rs").isSuffixOf file_name = true) →
      ∀ lines, check_rust file_name lines = [])
    ∧ ((chars ".toml").isSuffixOf file_name = false →
      ∀ lines, check_toml file_name lines = [])
    ∧ ((chars ".webidl").isSuffixOf file_name = false →
      ∀ contents, check_webidl_spec file_name contents = [])
    ∧ (((chars ".toml").isSuffixOf file_name = true
        ∨ (chars ".lock").isSuffixOf file_name = true
        ∨ (chars ".json").isSuffixOf file_name = true) →
      ∀ lines, check_license file_name lines = [])
    ∧ (((chars ".lock").isSuffixOf file_name = true
        ∨ (chars ".json").isSuffixOf file_name = true) →
      ∀ idx line, check_length file_name idx line = []) := by
  refine ⟨?_, ?_, ?_, ?_, ?_, ?_⟩
  · intro h content
    simp [check_lock, h]
  · rintro (h | h | h | h | h) lines <;> simp [check_rust, h]
  · intro h lines
    simp [check_toml, h]
  · intro h contents
    simp [check_webidl_spec, h]
  · rintro (h | h | h) lines <;> simp [check_license, h]
  · rintro (h | h) idx line <;> simp [check_length, h]

theorem c8_out_of_scope_witness :
    check_lock (chars "a.py") fooLock = ([], none)
    ∧ check_rust (chars "a.py") importLinesBad = []
    ∧ check_toml (chars "a.py") [chars "version = \"*\"\n"] = []
    ∧ check_webidl_spec (chars "a.py") (chars "junk") = []
    ∧ check_license (chars "b.json") [chars "junk\n"] = []
    ∧ check_length (chars "b.json") 0 (List.replicate 200 'a') = [] :=
  ⟨(c8_out_of_scope (chars "a.py")).1 rfl fooLock,
   (c8_out_of_scope (chars "a.py")).2.1 (Or.inl rfl) importLinesBad,
   (c8_out_of_scope (chars "a.py")).2.2.1 rfl [chars "version = \"*\"\n"],
   (c8_out_of_scope (chars "a.py")).2.2.2.1 rfl (chars "junk"),
   (c8_out_of_scope (chars "b.json")).2.2.2.2.1 (Or.inr (Or.inr rfl)) [chars "junk\n"],
   (c8_out_of_scope (chars "b.json")).2.2.2.2.2 (Or.inr rfl) 0 (List.replicate 200 'a')⟩

theorem mem_iteSingleton {c : Prop} [Decidable c] {x y : Nat × Str}
    (h : x ∈ (if c then [y] else [])) : x = y := by
  split at h
  · simpa using h
  · simp at h

theorem processVersions_locator (name highest : Str) (content : LockContent) :
    ∀ (vs : List Str) (f : Nat × Str),
      f ∈ (processVersions name highest content vs).1 → f.1 = 1
  | [], f, h => by simp [processVersions] at h
  | v :: rest, f, h => by
    simp only [processVersions] at h
    split at h
    · split at h
      · simp at h
      · rcases List.mem_cons.mp h with h1 | h2
        · rw [h1]
        · exact processVersions_locator name highest content rest f h2
    · exact processVersions_locator name highest content rest f h

theorem processPackages_locator (content : LockContent) :
    ∀ (pkgs : List (Str × List Str)) (f : Nat × Str),
      f ∈ (processPackages content pkgs).1 → f.1 = 1
  | [], f, h => by simp [processPackages] at h
  | (name, versions) :: rest, f, h => by
    simp only [processPackages] at h
    split at h
    · exact processPackages_locator content rest f h
    · split at h
      · exact processVersions_locator name (pyMax versions) content versions f h
      · rcases List.mem_append.mp h with h1 | h2
        · exact processVersions_locator name (pyMax versions) content versions f h1
        · exact processPackages_locator content rest f h2

/-- Claim C4 (counterexample): `check_webidl_spec` anchors its file-scoped
finding at the numeric locator 0 — not at a 1-based line number and not at
a non-numeric label. -/
theorem c4_counterexample :
    check_webidl_spec (chars "a.webidl") (chars "interface Foo;")
      = [(0, chars "No specification link found.")] := rfl

/-- Claim C4 (amended): the line-scoped rules (`check_license`,
`check_length`, `check_whitespace`, the two WHATWG URL rules, `check_toml`)
and `check_lock` anchor every finding at a positive 1-based line number
(the license and lock rules always at line 1, the per-line rules at
`idx + 1`); but `check_webidl_spec` emits the numeric locator 0 for its
file-scoped finding, and `check_rust`'s blank-line-inside-import-block
finding is anchored at the 0-based index of the `use` line — the line
before it — as the concrete three-line file shows (the `use` statement is
on line 3, the finding on line 2). -/
theorem c4_locators :
    (∀ (n : Str) (ls : List Str) (f : Nat × Str), f ∈ check_license n ls → f.1 = 1)
    ∧ (∀ (n : Str) (idx : Nat) (line : Str) (f : Nat × Str),
        f ∈ check_length n idx line → f.1 = idx + 1)
    ∧ (∀ (idx : Nat) (line : Str) (fs : List (Nat × Str)) (f : Nat × Str),
        check_whitespace idx line = .ok fs → f ∈ fs → f.1 = idx + 1)
    ∧ (∀ (idx : Nat) (line : Str) (f : Nat × Str),
        f ∈ check_whatwg_specific_url idx line → f.1 = idx + 1)
    ∧ (∀ (idx : Nat) (line : Str) (f : Nat × Str),
        f ∈ check_whatwg_single_page_url idx line → f.1 = idx + 1)
    ∧ (∀ (n : Str) (ls : List Str) (f : Nat × Str), f ∈ check_toml n ls → 1 ≤ f.1)
    ∧ (∀ (n : Str) (c : LockContent) (f : Nat × Str), f ∈ (check_lock n c).1 → f.1 = 1)
    ∧ (∀ (n : Str) (c : Str) (f : Nat × Str), f ∈ check_webidl_spec n c → f.1 = 0)
    ∧ check_rust (chars "w.rs") [chars "use a;\n", chars "\n", chars "use b;\n"]
        = [(2, chars "encountered whitespace following a use statement")] := by
  refine ⟨?_, ?_, ?_, ?_, ?_, ?_, ?_, ?_, rfl⟩
  · intro n ls f h
    simp only [check_license] at h
    split at h
    · simp at h
    · split at h
      · simp at h
      · split at h
        · simp at h
        · split at h
          · simp at h
          · simp only [List.mem_singleton] at h
            rw [h]
  · intro n idx line f h
    simp only [check_length] at h
    split at h
    · simp at h
    · rw [mem_iteSingleton h]
  · intro idx line fs f hok hf
    simp only [check_whitespace] at hok
    split at hok
    · simp at hok
    · rw [Except.ok.injEq] at hok
      subst hok
      simp only [List.mem_append] at hf
      rcases hf with ((h | h) | h) | h
      · split at h
        · simp at h
        · simp at h
          rw [h]
      · rw [mem_iteSingleton h]
      · rw [mem_iteSingleton h]
      · rw [mem_iteSingleton h]
  · intro idx line f h
    simp only [check_whatwg_specific_url] at h
    split at h
    · simp at h
    · simp at h
      rw [h]
  · intro idx line f h
    simp only [check_whatwg_single_page_url] at h
    split at h
    · simp at h
    · simp at h
      rw [h]
  · intro n ls f h
    simp only [check_toml] at h
    split at h
    · simp at h
    · rw [mem_flatL] at h
      obtain ⟨l, hl, hfl⟩ := h
      obtain ⟨p, _, rfl⟩ := List.mem_map.mp hl
      have := mem_iteSingleton hfl
      rw [this]
      omega
  · intro n c f h
    simp only [check_lock] at h
    split at h
    · simp at h
    · exact processPackages_locator c _ f h
  · intro n c f h
    simp only [check_webidl_spec] at h
    split at h
    · simp at h
    · split at h
      · simp at h
      · simp at h
        rw [h]

set_option maxRecDepth 4000 in
theorem c4_locators_witness :
    ((1 : Nat), chars "incorrect license").1 = 1 :=
  c4_locators.1 (chars "a.rs") [] (1, chars "incorrect license") (by decide)

/-- Claim C5: for a file not ending in `.toml`/`.lock`/`.json`: if, after
stripping leading editor-mode header lines, the content starts with a known
license text verbatim (the license occupying at most `MAX_LICENSE_LINESPAN`
lines), the license rule yields nothing; if the header matches no known
license (as after altering one character of its first line) and does not
contain the override marker, it yields exactly one finding at line 1; and
the override marker anywhere in the header span suppresses the finding. -/
theorem c5_license_header :
    (∀ (file_name : Str) (lines licLines rest : List Str) (lic : Str),
      (chars ".toml").isSuffixOf file_name = false →
      (chars ".lock").isSuffixOf file_name = false →
      (chars ".json").isSuffixOf file_name = false →
      lic ∈ licenses →
      dropEditorHeaders lines = licLines ++ rest →
      flatL licLines = lic →
      licLines.length ≤ MAX_LICENSE_LINESPAN →
      check_license file_name lines = [])
    ∧ (∀ (file_name : Str) (lines : List Str),
      (chars ".toml").isSuffixOf file_name = false →
      (chars ".lock").isSuffixOf file_name = false →
      (chars ".json").isSuffixOf file_name = false →
      (∀ lic ∈ licenses, lic.isPrefixOf (licenseHeader lines) = false) →
      containsSub (chars "xfail-license") (licenseHeader lines) = false →
      check_license file_name lines = [(1, chars "incorrect license")])
    ∧ (∀ (file_name : Str) (lines : List Str),
      (chars ".toml").isSuffixOf file_name = false →
      (chars ".lock").isSuffixOf file_name = false →
      (chars ".json").isSuffixOf file_name = false →
      containsSub (chars "xfail-license") (licenseHeader lines) = true →
      check_license file_name lines = []) := by
  refine ⟨?_, ?_, ?_⟩
  · intro file_name lines licLines rest lic htoml hlock hjson hmem hdrop hjoin hlen
    have hpref : lic.isPrefixOf (licenseHeader lines) = true := by
      rw [licenseHeader, hdrop, List.take_append_eq_append_take,
        List.take_of_length_le hlen, flatL_append, hjoin]
      exact isPrefixOf_append_self lic _
    have hany : licenses.any (fun l => l.isPrefixOf (licenseHeader lines)) = true :=
      List.any_eq_true.mpr ⟨lic, hmem, hpref⟩
    simp [check_license, htoml, hlock, hjson, hany]
  · intro file_name lines htoml hlock hjson hno hxf
    have hany : licenses.any (fun l => l.isPrefixOf (licenseHeader lines)) = false := by
      rw [List.any_eq_false]
      intro lic hmem
      simp [hno lic hmem]
    simp [check_license, htoml, hlock, hjson, hany, hxf]
  · intro file_name lines htoml hlock hjson hxf
    simp [check_license, htoml, hlock, hjson, hxf]

/-- The first modelled license text (the MPL block-comment header). -/
def mplLicense : Str :=
  chars "/* This Source Code Form is subject to the terms of the Mozilla Public\n * License, v. 2.0. If a copy of the MPL was not distributed with this\n * file, You can obtain one at http://mozilla.org/MPL/2.0/. */\n"

def mplLines : List Str :=
  [chars "/* This Source Code Form is subject to the terms of the Mozilla Public\n",
   chars " * License, v. 2.0. If a copy of the MPL was not distributed with this\n",
   chars " * file, You can obtain one at http://mozilla.org/MPL/2.0/. */\n"]

/-- `mplLines` with one character of the first line altered (S → X). -/
def alteredMplLines : List Str :=
  [chars "/* This Xource Code Form is subject to the terms of the Mozilla Public\n",
   chars " * License, v. 2.0. If a copy of the MPL was not distributed with this\n",
   chars " * file, You can obtain one at http://mozilla.org/MPL/2.0/. */\n",
   chars "extern crate foo;\n"]

/-- An altered header carrying the `xfail-license` override marker. -/
def xfailLines : List Str :=
  [chars "/* This Xource Code Form is subject to the terms of the Mozilla Public\n",
   chars " * xfail-license */\n",
   chars "extern crate foo;\n"]

set_option maxRecDepth 8000 in
theorem c5_license_header_witness :
    check_license (chars "a.rs") (mplLines ++ [chars "extern crate foo;\n"]) = []
    ∧ check_license (chars "a.rs") alteredMplLines = [(1, chars "incorrect license")]
    ∧ check_license (chars "a.rs") xfailLines = [] :=
  ⟨c5_license_header.1 (chars "a.rs") (mplLines ++ [chars "extern crate foo;\n"]) mplLines
      [chars "extern crate foo;\n"] mplLicense rfl rfl rfl (by decide) (by decide)
      (by decide) (by decide),
   c5_license_header.2.1 (chars "a.rs") alteredMplLines rfl rfl rfl (by decide) (by decide),
   c5_license_header.2.2 (chars "a.rs") xfailLines rfl rfl rfl (by decide)⟩

theorem searchSpecific_preferredLink (a : Str) :
    searchSpecific (preferredLink a) = searchSpecific a := rfl

theorem searchSinglePage_preferredLink (a : Str) :
    searchSinglePage (preferredLink a) = searchSinglePage a := rfl

theorem matchSpecificAt_anchorChars (l : Str) (h : ∀ c ∈ l, isAnchorChar c = true) :
    matchSpecificAt l = none := by
  have hpref : litMultipage.isPrefixOf l = false := by
    by_contra hc
    rw [Bool.not_eq_false] at hc
    have hmem := mem_of_isPrefixOf litMultipage l '/' hc (by decide)
    exact absurd (h '/' hmem) (by decide)
  simp [matchSpecificAt, hpref]

theorem matchSinglePageAt_anchorChars (l : Str) (h : ∀ c ∈ l, isAnchorChar c = true) :
    matchSinglePageAt l = none := by
  have hpref : litSinglePage.isPrefixOf l = false := by
    by_contra hc
    rw [Bool.not_eq_false] at hc
    have hmem := mem_of_isPrefixOf litSinglePage l '/' hc (by decide)
    exact absurd (h '/' hmem) (by decide)
  simp [matchSinglePageAt, hpref]

theorem searchSpecific_anchorChars :
    ∀ (l : Str), (∀ c ∈ l, isAnchorChar c = true) → searchSpecific l = none
  | [], _ => rfl
  | c :: rest, h => by
    simp only [searchSpecific, matchSpecificAt_anchorChars (c :: rest) h]
    exact searchSpecific_anchorChars rest (fun x hx => h x (List.mem_cons_of_mem _ hx))

theorem searchSinglePage_anchorChars :
    ∀ (l : Str), (∀ c ∈ l, isAnchorChar c = true) → searchSinglePage l = none
  | [], _ => rfl
  | c :: rest, h => by
    simp only [searchSinglePage, matchSinglePageAt_anchorChars (c :: rest) h]
    exact searchSinglePage_anchorChars rest (fun x hx => h x (List.mem_cons_of_mem _ hx))

/-- Claim C9: for every anchor fragment (a nonempty string over the anchor
character class `[\w\:-]` that both rules extract), a line consisting of the
suggested canonical replacement URL matches neither deprecated-URL rule:
applying the suggested fix is a fixed point. -/
theorem c9_preferred_link_fixed_point (idx : Nat) (a : Str)
    (hne : a ≠ []) (ha : ∀ c ∈ a, isAnchorChar c = true) :
    check_whatwg_specific_url idx (preferredLink a) = []
    ∧ check_whatwg_single_page_url idx (preferredLink a) = [] := by
  have h1 : searchSpecific (preferredLink a) = none :=
    (searchSpecific_preferredLink a).trans (searchSpecific_anchorChars a ha)
  have h2 : searchSinglePage (preferredLink a) = none :=
    (searchSinglePage_preferredLink a).trans (searchSinglePage_anchorChars a ha)
  have := hne
  exact ⟨by simp [check_whatwg_specific_url, h1], by simp [check_whatwg_single_page_url, h2]⟩

theorem c9_preferred_link_fixed_point_witness :
    check_whatwg_specific_url 3 (preferredLink (chars "dom-foo")) = []
    ∧ check_whatwg_single_page_url 3 (preferredLink (chars "dom-foo")) = [] :=
  c9_preferred_link_fixed_point 3 (chars "dom-foo") (by decide) (by decide)
